import Mathlib

/-!
Verification of the cc-sync session-store synchronizer.

The development shallowly embeds the synchronization logic of the
repository (src/cc_context/core/sync_ops.py, src/cc_context/core/git_ops.py,
src/cc_context/cli/checkout_sync.py).  External collaborators (the git
binary, the HTTP blob store) are modelled as environment parameters whose
outcomes are explicit data, exactly following the branching structure of the
Python source; the synchronization control flow itself is translated
line by line.
-/

namespace CCSync

/-! ### Remote reconciler (sync_ops.py)

The outcome of the HTTP download in `pull_from_remote` is one of: a 404
("not found"), a transport error (`requests.RequestException`), or a
successful download after which `git fetch`/`git merge` either succeed or
fail (`subprocess.CalledProcessError`).  Each distinct outcome is a
constructor so that the fallback behaviour of `sync_with_remote` can be
analysed per outcome. -/

inductive Download where
  | notFound
  | netError
  | fetched (mergeOk : Bool)
deriving DecidableEq, Repr

/-- Environment for the remote reconciler: whether the Supabase
configuration variables are all present, whether the Claude repo is
initialized, the download outcome, and whether bundle creation plus upload
succeed. -/
structure SyncEnv where
  configPresent : Bool
  initialized : Bool
  download : Download
  pushOk : Bool
deriving DecidableEq, Repr

/-- Mirrors `pull_from_remote` of sync_ops.py: fail when the repo is not
initialized or the configuration is missing; a 404 status returns False; a
transport error returns False; otherwise the bundle is fetched and merged,
returning True exactly when both git commands succeed. -/
def pull_from_remote (env : SyncEnv) : Bool :=
  if !env.initialized then false
  else if !env.configPresent then false
  else
    match env.download with
    | .notFound => false
    | .netError => false
    | .fetched mergeOk => mergeOk

/-- Mirrors `push_to_remote` of sync_ops.py: fail when the repo is not
initialized or the configuration is missing; otherwise succeed exactly when
bundle creation and the PUT upload succeed. -/
def push_to_remote (env : SyncEnv) : Bool :=
  if !env.initialized then false
  else if !env.configPresent then false
  else env.pushOk

/-- Mirrors `sync_with_remote` of sync_ops.py.  Returns the overall result
together with a flag recording whether the Push fallback was taken. -/
def sync_with_remote (env : SyncEnv) : Bool × Bool :=
  if !env.configPresent then (false, false)
  else if pull_from_remote env then (true, false)
  else (push_to_remote env, true)

/-- A concrete environment where the download fails with a transport error
(not a 404) and a push would succeed. -/
def netErrEnv : SyncEnv :=
  { configPresent := true, initialized := true,
    download := .netError, pushOk := true }

/-! ### Root commits of the Claude repo (git_ops.get_initial_commit)

`get_initial_commit` runs `git rev-list --max-parents=0 HEAD` and returns
`stdout.strip()`.  Modelled from the spec and the documented behaviour of
the external VCS engine: `rev-list --max-parents=0 HEAD` prints the
identifier of every zero-parent commit reachable from HEAD, one per line;
after stripping the trailing newline the result is the ids joined by single
newline characters.  Identifiers are modelled as lists of characters. -/
def revListRootsOutput (roots : List (List Char)) : List Char :=
  [Char.ofNat 10].intercalate roots

/-- Mirrors `get_initial_commit` of git_ops.py: `None` when the repo is not
initialized (or git fails), otherwise the stripped stdout of
`git rev-list --max-parents=0 HEAD`. -/
def get_initial_commit (initialized : Bool) (roots : List (List Char)) :
    Option (List Char) :=
  if initialized then some (revListRootsOutput roots) else none

/-! ### Correlation resolver with ancestry fallback (git_ops.py)

`find_context_for_commit_or_ancestor` runs a breadth-first walk over the
main repository's commit graph:

    visited = set(); to_check = [main_sha]; depth = 0
    while to_check and depth < max_depth:
        current = to_check.pop(0)
        if current in visited: continue
        visited.add(current)
        claude = find_commit_by_main_sha(current)
        if claude: return claude
        to_check.extend(get_commit_parents(current)); depth += 1
    return None

The parent map (`git rev-list --parents`) and the direct-match lookup
(`git log --all --grep`) are environment functions.  Leading
already-visited queue elements are skipped without touching `depth`, so the
loop is equivalently: drop visited elements from the front of the queue,
then, if the expansion budget `max_depth - depth` is positive, process the
first unvisited element.  The embedding makes that remaining budget an
explicit fuel argument, which keeps the recursion structural. -/

/-- Drops the leading elements of the queue that are already in the visited
set; this is the cumulative effect of the `continue` branch of the loop. -/
def dropVisited (visited : List String) : List String → List String
  | [] => []
  | x :: rest => if x ∈ visited then dropVisited visited rest else x :: rest

/-- The while loop of `find_context_for_commit_or_ancestor`.  `fuel` is the
remaining expansion budget `max_depth - depth`.  Besides the result, the
list of commits on which the direct-match `lookup` was queried is returned
(in query order), so that the query count can be stated. -/
def bfsGo (parents : String → List String) (lookup : String → Option String) :
    Nat → List String → List String → Option String × List String
  | 0, _, _ => (none, [])
  | fuel + 1, toCheck, visited =>
    match dropVisited visited toCheck with
    | [] => (none, [])
    | current :: rest =>
      match lookup current with
      | some c => (some c, [current])
      | none =>
        let r := bfsGo parents lookup fuel (rest ++ parents current)
          (current :: visited)
        (r.1, current :: r.2)

/-- Mirrors `find_context_for_commit_or_ancestor` of git_ops.py: `None`
when the Claude repo is not initialized, otherwise the result of the
breadth-first walk starting from `main_sha` with budget `max_depth`
(default 100 in the source). -/
def find_context_for_commit_or_ancestor (initialized : Bool)
    (parents : String → List String) (lookup : String → Option String)
    (main_sha : String) (max_depth : Nat) : Option String :=
  if !initialized then none
  else (bfsGo parents lookup max_depth [main_sha] []).1

/-- The commits the walk queries when no direct match exists anywhere:
the visit order of the plain breadth-first traversal. -/
def bfsVisitOrder (parents : String → List String) (max_depth : Nat)
    (main_sha : String) : List String :=
  (bfsGo parents (fun _ => none) max_depth [main_sha] []).2

/-- A diamond-shaped parent graph: d is reached by two parent edges. -/
def diamondParents : String → List String
  | "a" => ["b", "c"]
  | "b" => ["d"]
  | "c" => ["d"]
  | _ => []

theorem dropVisited_eq_nil_or_head_not_visited (visited : List String) :
    ∀ l : List String, dropVisited visited l = [] ∨
      ∃ x rest, dropVisited visited l = x :: rest ∧ x ∉ visited := by
  intro l
  induction l with
  | nil => exact Or.inl rfl
  | cons x rest ih =>
    by_cases hx : x ∈ visited
    · simpa [dropVisited, hx] using ih
    · exact Or.inr ⟨x, rest, by simp [dropVisited, hx], hx⟩

theorem bfsGo_zero (parents : String → List String)
    (lookup : String → Option String) (toCheck visited : List String) :
    bfsGo parents lookup 0 toCheck visited = (none, []) := rfl

theorem bfsGo_succ_empty (parents : String → List String)
    (lookup : String → Option String) {toCheck visited : List String}
    (fuel : Nat) (h : dropVisited visited toCheck = []) :
    bfsGo parents lookup (fuel + 1) toCheck visited = (none, []) := by
  rw [bfsGo, h]

theorem bfsGo_succ_hit (parents : String → List String)
    (lookup : String → Option String) {toCheck visited : List String}
    {x c : String} {rest : List String} (fuel : Nat)
    (h : dropVisited visited toCheck = x :: rest) (hl : lookup x = some c) :
    bfsGo parents lookup (fuel + 1) toCheck visited = (some c, [x]) := by
  rw [bfsGo, h]
  dsimp only
  rw [hl]

theorem bfsGo_succ_expand (parents : String → List String)
    (lookup : String → Option String) {toCheck visited : List String}
    {x : String} {rest : List String} (fuel : Nat)
    (h : dropVisited visited toCheck = x :: rest) (hl : lookup x = none) :
    bfsGo parents lookup (fuel + 1) toCheck visited =
      ((bfsGo parents lookup fuel (rest ++ parents x) (x :: visited)).1,
        x :: (bfsGo parents lookup fuel (rest ++ parents x) (x :: visited)).2) := by
  rw [bfsGo, h]
  dsimp only
  rw [hl]

theorem bfsGo_queried_disjoint_nodup (parents : String → List String)
    (lookup : String → Option String) :
    ∀ (fuel : Nat) (toCheck visited : List String),
      (∀ q ∈ (bfsGo parents lookup fuel toCheck visited).2, q ∉ visited) ∧
      (bfsGo parents lookup fuel toCheck visited).2.Nodup := by
  intro fuel
  induction fuel with
  | zero => intro toCheck visited; simp [bfsGo_zero]
  | succ fuel ih =>
    intro toCheck visited
    rcases dropVisited_eq_nil_or_head_not_visited visited toCheck with h | ⟨x, rest, h, hx⟩
    · simp [bfsGo_succ_empty parents lookup fuel h]
    · cases hl : lookup x with
      | some c =>
        rw [bfsGo_succ_hit parents lookup fuel h hl]
        simpa using hx
      | none =>
        rw [bfsGo_succ_expand parents lookup fuel h hl]
        have ihr := ih (rest ++ parents x) (x :: visited)
        refine ⟨?_, ?_⟩
        · intro q hq
          simp only [List.mem_cons] at hq
          rcases hq with rfl | hq
          · exact hx
          · have := ihr.1 q hq
            simp only [List.mem_cons] at this
            exact fun hqv => this (Or.inr hqv)
        · refine List.nodup_cons.mpr ⟨fun hmem => ?_, ihr.2⟩
          have := ihr.1 x hmem
          simp at this

theorem bfsGo_queried_length (parents : String → List String)
    (lookup : String → Option String) :
    ∀ (fuel : Nat) (toCheck visited : List String),
      (bfsGo parents lookup fuel toCheck visited).2.length ≤ fuel := by
  intro fuel
  induction fuel with
  | zero => intro toCheck visited; simp [bfsGo_zero]
  | succ fuel ih =>
    intro toCheck visited
    rcases dropVisited_eq_nil_or_head_not_visited visited toCheck with h | ⟨x, rest, h, hx⟩
    · simp [bfsGo_succ_empty parents lookup fuel h]
    · cases hl : lookup x with
      | some c => rw [bfsGo_succ_hit parents lookup fuel h hl]; simp
      | none =>
        rw [bfsGo_succ_expand parents lookup fuel h hl]
        simpa [Nat.succ_le_succ_iff] using ih (rest ++ parents x) (x :: visited)

theorem bfsGo_none_of_lookup_none (parents : String → List String)
    (lookup : String → Option String) (hnone : ∀ x, lookup x = none) :
    ∀ (fuel : Nat) (toCheck visited : List String),
      (bfsGo parents lookup fuel toCheck visited).1 = none := by
  intro fuel
  induction fuel with
  | zero => intro toCheck visited; simp [bfsGo_zero]
  | succ fuel ih =>
    intro toCheck visited
    rcases dropVisited_eq_nil_or_head_not_visited visited toCheck with h | ⟨x, rest, h, hx⟩
    · simp [bfsGo_succ_empty parents lookup fuel h]
    · rw [bfsGo_succ_expand parents lookup fuel h (hnone x)]
      exact ih (rest ++ parents x) (x :: visited)

/-- C2: on every parent graph (diamonds included) and every starting
commit, the ancestry-fallback walk queries the direct-match lookup at most
once per distinct commit (the query list has no duplicates), performs at
most `maxDepth` expansions (the query list is at most `maxDepth` long; the
walk is total by construction), and returns `none` when the budget runs out
without any direct match existing. -/
theorem resolver_queries_once_and_bounded (parents : String → List String)
    (lookup : String → Option String) (maxDepth : Nat) (start : String) :
    (bfsGo parents lookup maxDepth [start] []).2.Nodup ∧
    (bfsGo parents lookup maxDepth [start] []).2.length ≤ maxDepth ∧
    ((∀ x, lookup x = none) →
      find_context_for_commit_or_ancestor true parents lookup start maxDepth = none) := by
  refine ⟨(bfsGo_queried_disjoint_nodup parents lookup maxDepth [start] []).2,
    bfsGo_queried_length parents lookup maxDepth [start] [], ?_⟩
  intro hnone
  simp [find_context_for_commit_or_ancestor,
    bfsGo_none_of_lookup_none parents lookup hnone]

/-- Witness for C2 on a concrete diamond graph with no tagged commit:
the merge-base d is queried only once and the walk returns `none`. -/
theorem resolver_queries_once_and_bounded_witness :
    (bfsGo diamondParents (fun _ => none) 10 ["a"] []).2.Nodup ∧
    (bfsGo diamondParents (fun _ => none) 10 ["a"] []).2.length ≤ 10 ∧
    find_context_for_commit_or_ancestor true diamondParents (fun _ => none) "a" 10 = none ∧
    bfsVisitOrder diamondParents 10 "a" = ["a", "b", "c", "d"] := by
  have h := resolver_queries_once_and_bounded diamondParents (fun _ => none) 10 "a"
  exact ⟨h.1, h.2.1, h.2.2 (fun _ => rfl), by decide⟩

theorem bfsGo_first_tagged (parents : String → List String)
    (lookup : String → Option String) (A c : String) (hA : lookup A = some c) :
    ∀ (fuel : Nat) (toCheck visited : List String), A ∉ visited →
      ∀ pre suf,
        (bfsGo parents (fun _ => none) fuel toCheck visited).2 = pre ++ A :: suf →
        (∀ x ∈ pre, lookup x = none) →
        (bfsGo parents lookup fuel toCheck visited).1 = some c := by
  intro fuel
  induction fuel with
  | zero =>
    intro toCheck visited hAv pre suf hdec hpre
    rw [bfsGo_zero] at hdec
    simp at hdec
  | succ fuel ih =>
    intro toCheck visited hAv pre suf hdec hpre
    rcases dropVisited_eq_nil_or_head_not_visited visited toCheck with h | ⟨x, rest, h, hx⟩
    · rw [bfsGo_succ_empty parents _ fuel h] at hdec
      simp at hdec
    · rw [bfsGo_succ_expand parents (fun _ => none) fuel h rfl] at hdec
      cases pre with
      | nil =>
        simp only [List.nil_append] at hdec
        obtain ⟨hxA, -⟩ := List.cons_eq_cons.mp hdec
        subst hxA
        rw [bfsGo_succ_hit parents lookup fuel h hA]
      | cons p0 pre' =>
        simp only [List.cons_append] at hdec
        obtain ⟨hxp, hrest⟩ := List.cons_eq_cons.mp hdec
        have hlx : lookup x = none := by
          rw [hxp]
          exact hpre p0 (List.mem_cons_self _ _)
        have hAx : ¬ A = x := by
          intro hAx
          rw [← hAx, hA] at hlx
          cases hlx
        have hAv' : A ∉ x :: visited := by
          simp only [List.mem_cons]
          exact fun hor => hor.elim hAx hAv
        rw [bfsGo_succ_expand parents lookup fuel h hlx]
        exact ih (rest ++ parents x) (x :: visited) hAv' pre' suf hrest
          (fun y hy => hpre y (List.mem_cons_of_mem _ hy))

/-- C8: for every store tagging (the direct-match lookup may tag any set
of primary commits), if commit A carries the tag of secondary commit c,
the breadth-first walk from the start commit reaches A within the depth
budget, and every commit the walk visits before A is untagged (the start
itself in particular), then the resolver stops at A, the first match, and
returns the secondary commit tagged for A. -/
theorem resolver_returns_ancestor_context (parents : String → List String)
    (lookup : String → Option String) (maxDepth : Nat) (start A c : String)
    (hA : lookup A = some c) (pre suf : List String)
    (horder : bfsVisitOrder parents maxDepth start = pre ++ A :: suf)
    (hpre : ∀ x ∈ pre, lookup x = none) :
    find_context_for_commit_or_ancestor true parents lookup start maxDepth = some c := by
  have h := bfsGo_first_tagged parents lookup A c hA maxDepth [start] []
    (by simp) pre suf horder hpre
  simpa [find_context_for_commit_or_ancestor] using h

/-- Direct-match lookup for the C8 witness: the store carries tags for the
two primary commits d and e. -/
def abLookup : String → Option String :=
  fun x => if x = "d" then some "ctxD" else if x = "e" then some "ctxE" else none

/-- Witness for C8 on the concrete diamond against a store tagged for both
d and e: the start a has no direct tag, its ancestry reaches d through both
b and c, the earlier-visited a, b, c are untagged, and resolution returns
the context tagged for d even though the store also tags e. -/
theorem resolver_returns_ancestor_context_witness :
    find_context_for_commit_or_ancestor true diamondParents abLookup "a" 10 =
      some "ctxD" := by
  apply resolver_returns_ancestor_context diamondParents abLookup 10 "a" "d" "ctxD"
    (by decide) ["a", "b", "c"] []
  · decide
  · decide

/-- C1 counterexample: with a transport-error download (not a "not found"
response), the pull fails and `sync_with_remote` still takes the Push
fallback (which here succeeds), so the fallback is not reserved to the
remote-empty case. -/
theorem sync_push_fallback_not_only_on_empty :
    netErrEnv.download = Download.netError ∧
    netErrEnv.download ≠ Download.notFound ∧
    pull_from_remote netErrEnv = false ∧
    (sync_with_remote netErrEnv).2 = true ∧
    (sync_with_remote netErrEnv).1 = true := by decide

/-- C1 (amended): the Push fallback is taken exactly when Pull fails, for
any reason ("not found", transport error, or fetch/merge failure alike;
the code does not distinguish the remote-empty case from other Pull
failures), and the overall operation succeeds iff the Pull succeeds or the
fallback Push succeeds. -/
theorem sync_fallback_exactly_on_pull_failure (env : SyncEnv)
    (h : env.configPresent = true) :
    ((sync_with_remote env).2 = true ↔ pull_from_remote env = false) ∧
    ((sync_with_remote env).1 = true ↔
      (pull_from_remote env = true ∨ push_to_remote env = true)) := by
  unfold sync_with_remote
  rw [h]
  cases hp : pull_from_remote env <;> simp [hp]

/-- Witness for the amended C1 at the concrete transport-error
environment. -/
theorem sync_fallback_exactly_on_pull_failure_witness :
    ((sync_with_remote netErrEnv).2 = true ↔ pull_from_remote netErrEnv = false) ∧
    ((sync_with_remote netErrEnv).1 = true ↔
      (pull_from_remote netErrEnv = true ∨ push_to_remote netErrEnv = true)) :=
  sync_fallback_exactly_on_pull_failure netErrEnv rfl

/-- C10: `get_initial_commit` returns the newline-joined list of every
root commit id reachable from HEAD: splitting the returned string on
newlines recovers exactly the root list, with two or more roots the string
contains a newline (so it is not a single id), and it is a single bare id
precisely in the one-root case. -/
theorem initial_commit_joins_all_roots (roots : List (List Char))
    (hch : ∀ r ∈ roots, Char.ofNat 10 ∉ r) (hne : roots ≠ []) :
    get_initial_commit true roots = some (revListRootsOutput roots) ∧
    (revListRootsOutput roots).splitOn (Char.ofNat 10) = roots ∧
    (2 ≤ roots.length → Char.ofNat 10 ∈ revListRootsOutput roots) ∧
    (∀ r, roots = [r] → revListRootsOutput roots = r) := by
  refine ⟨rfl, ?_, ?_, ?_⟩
  · simpa [revListRootsOutput] using
      List.splitOn_intercalate roots (Char.ofNat 10) hch hne
  · intro h2
    match roots, h2 with
    | a :: b :: t, _ =>
      simp [revListRootsOutput, List.intercalate]
  · intro r hr
    subst hr
    simp [revListRootsOutput, List.intercalate]

/-- Witness for C10 with two concrete root commits. -/
theorem initial_commit_joins_all_roots_witness :
    get_initial_commit true [['x'], ['y']] = some (revListRootsOutput [['x'], ['y']]) ∧
    (revListRootsOutput [['x'], ['y']]).splitOn (Char.ofNat 10) = [['x'], ['y']] ∧
    (2 ≤ ([['x'], ['y']] : List (List Char)).length →
      Char.ofNat 10 ∈ revListRootsOutput [['x'], ['y']]) ∧
    (∀ r, ([['x'], ['y']] : List (List Char)) = [r] →
      revListRootsOutput [['x'], ['y']] = r) :=
  initial_commit_joins_all_roots [['x'], ['y']] (by decide) (by decide)

/-! ### Stash lookup (git_ops.find_stash_by_message)

The Python function lists the stash, splits stdout into lines, and returns
`line.split(':')[0].strip()` for the first line with `pattern in line`
(Python substring containment), else `None`.  Listing lines and patterns
are modelled as character lists; `containsSub` is Python's `in`. -/

/-- Python substring containment `pat in line`: some contiguous slice of
`line` equals `pat` (the empty pattern is contained in everything). -/
def containsSub (pat : List Char) : List Char → Bool
  | [] => pat.isEmpty
  | c :: rest => pat.isPrefixOf (c :: rest) || containsSub pat rest

/-- Python `s.strip()`: remove leading and trailing whitespace. -/
def stripEnds (l : List Char) : List Char :=
  ((l.dropWhile (·.isWhitespace)).reverse.dropWhile (·.isWhitespace)).reverse

/-- Python `line.split(':')[0]`: the segment before the first colon (the
whole line when it has no colon). -/
def beforeColon (l : List Char) : List Char :=
  l.takeWhile (fun c => !(c = ':'))

/-- Mirrors `find_stash_by_message` of git_ops.py: `None` when the repo is
not initialized, otherwise the stripped before-colon segment (the stash
reference) of the first listing line that contains the pattern as a
substring, and `None` when no line does. -/
def find_stash_by_message (initialized : Bool) (stashLines : List (List Char))
    (pat : List Char) : Option (List Char) :=
  if !initialized then none
  else
    match stashLines.find? (fun line => containsSub pat line) with
    | some line => some (stripEnds (beforeColon line))
    | none => none

theorem containsSub_iff (pat : List Char) :
    ∀ line : List Char, containsSub pat line = true ↔ ∃ x y, line = x ++ pat ++ y := by
  intro line
  induction line with
  | nil =>
    simp only [containsSub, List.isEmpty_iff]
    constructor
    · rintro rfl
      exact ⟨[], [], rfl⟩
    · rintro ⟨x, y, hxy⟩
      rcases List.append_eq_nil.mp (List.append_eq_nil.mp hxy.symm).1 with ⟨-, h⟩
      exact h
  | cons c rest ih =>
    simp only [containsSub, Bool.or_eq_true, ih]
    constructor
    · rintro (hpre | ⟨x, y, rfl⟩)
      · rcases List.isPrefixOf_iff_prefix.mp hpre with ⟨t, ht⟩
        exact ⟨[], t, by simp [← ht]⟩
      · exact ⟨c :: x, y, rfl⟩
    · rintro ⟨x, y, hxy⟩
      cases x with
      | nil =>
        left
        exact List.isPrefixOf_iff_prefix.mpr ⟨y, by simpa using hxy.symm⟩
      | cons a x =>
        right
        rcases List.cons_eq_cons.mp hxy with ⟨rfl, hrest⟩
        exact ⟨x, y, hrest⟩

/-- C9: stash lookup matches by substring, not exact tag.  On an
initialized repo, (i) the lookup returns `None` iff no listing line
contains the pattern as a contiguous substring, and (ii) whenever the
listing decomposes as earlier non-matching lines followed by a line that
contains the pattern anywhere inside it, the returned reference is the
stripped before-colon field of that first matching line. -/
theorem stash_lookup_substring_first_line (stashLines : List (List Char))
    (pat : List Char) :
    (find_stash_by_message true stashLines pat = none ↔
      ∀ l ∈ stashLines, ¬ ∃ x y, l = x ++ pat ++ y) ∧
    (∀ pre l post, stashLines = pre ++ l :: post →
      (∀ l' ∈ pre, ¬ ∃ x y, l' = x ++ pat ++ y) →
      (∃ x y, l = x ++ pat ++ y) →
      find_stash_by_message true stashLines pat =
        some (stripEnds (beforeColon l))) := by
  constructor
  · simp only [find_stash_by_message, Bool.not_true, Bool.false_eq_true, if_false]
    cases hf : stashLines.find? (fun line => containsSub pat line) with
    | some line =>
      simp only [reduceCtorEq, false_iff, not_forall]
      refine ⟨line, List.mem_of_find?_eq_some hf, ?_⟩
      have := List.find?_some hf
      simp only [not_not]
      exact (containsSub_iff pat line).mp this
    | none =>
      simp only [true_iff]
      intro l hl hsub
      have := List.find?_eq_none.mp hf l hl
      exact this ((containsSub_iff pat l).mpr hsub)
  · intro pre l post hdecomp hpre hl
    subst hdecomp
    simp only [find_stash_by_message, Bool.not_true, Bool.false_eq_true, if_false]
    have hfind : (pre ++ l :: post).find? (fun line => containsSub pat line) = some l := by
      rw [List.find?_append]
      have hpre' : pre.find? (fun line => containsSub pat line) = none := by
        rw [List.find?_eq_none]
        intro x hx
        simp only [Bool.not_eq_true]
        rw [← Bool.not_eq_true, containsSub_iff]
        exact hpre x hx
      rw [hpre']
      simp [List.find?_cons, (containsSub_iff pat l).mpr hl]
    rw [hfind]

/-- Witness for C9: the pattern sessions-for-b is found inside the longer
listing line `stash@\x7b0\x7d: On main: WIP sessions-for-bc` (substring, not
exact match), skipping the earlier non-matching line, and the returned
reference is the text before the colon. -/
theorem stash_lookup_substring_first_line_witness :
    find_stash_by_message true
      [("stash@\x7b0\x7d: On main: other".toList),
       ("stash@\x7b1\x7d: On main: WIP sessions-for-bc".toList)]
      ("sessions-for-b".toList) =
      some ("stash@\x7b1\x7d".toList) := by
  have h := (stash_lookup_substring_first_line
    [("stash@\x7b0\x7d: On main: other".toList),
     ("stash@\x7b1\x7d: On main: WIP sessions-for-bc".toList)]
    ("sessions-for-b".toList)).2
    [("stash@\x7b0\x7d: On main: other".toList)]
    ("stash@\x7b1\x7d: On main: WIP sessions-for-bc".toList) [] rfl
    (by
      intro l' hl' hsub
      rcases hsub with ⟨x, y, hxy⟩
      simp only [List.mem_singleton] at hl'
      subst hl'
      have : containsSub ("sessions-for-b".toList)
          ("stash@\x7b0\x7d: On main: other".toList) = true :=
        (containsSub_iff _ _).mpr ⟨x, y, hxy⟩
      exact absurd this (by decide))
    (⟨"stash@\x7b1\x7d: On main: WIP ".toList, "c".toList, by decide⟩)
  rw [h]
  decide

/-! ### Checkout synchronizer (cli/checkout_sync.py)

`sync_checkout(old_sha, new_sha, checkout_type)` is a single pass:
gate on the checkout type and the initialized store, read the main repo's
branch, skip a detached HEAD, stash uncommitted sessions (warning on
failure), resolve the new commit (falling back to the initial commit, and
aborting when even that is missing), create-or-reset the branch (aborting
on failure), clean untracked files (warning on failure), and pop a
matching stash (warning on failure).

The state of the Claude sessions repo keeps exactly what these steps
touch: the branch map, the dirty/untracked flags of the working tree, and
the stash list (most recent first, identified by message).  The outcomes
of the external git commands are environment flags; the resolver
(`find_commit_by_main_sha`), the main repo's current branch and the
store's initial commit are environment functions, since they only read
state this command never writes. -/

/-- Events recorded by the synchronizer: one step marker per state-machine
step that starts executing, plus the warning and error messages the Python
code prints. -/
inductive Ev where
  | notInit
  | noBranch
  | detached
  | stepPreserve
  | warnStash
  | stepResolve
  | errNoCommits
  | stepSwitch
  | errSwitch
  | stepClean
  | warnClean
  | stepRestore
  | restored
  | warnRestore
  | noRestore
deriving DecidableEq, Repr

/-- State of the Claude sessions repository. -/
structure RepoState where
  branches : List (String × String)
  dirtyTracked : Bool
  untracked : Bool
  stashes : List String
deriving DecidableEq, Repr

/-- Environment: results of the external git queries and the success of
each git mutation attempted by the synchronizer. -/
structure CheckoutEnv where
  initialized : Bool
  mainBranch : Option String
  resolve : String → Option String
  initialCommit : Option String
  stashOk : Bool
  checkoutOk : Bool
  cleanOk : Bool
  popOk : Bool

/-- The stash message used by checkout_sync.py. -/
def stashPattern (sha : String) : String := "sessions-for-" ++ sha

/-- Python substring containment on strings, reusing containsSub. -/
def strContains (line pat : String) : Bool := containsSub pat.data line.data

/-- Mirrors `has_uncommitted_changes` of git_ops.py: False when the repo is
not initialized, otherwise whether `git status --porcelain` reports
anything (tracked modifications or untracked files). -/
def has_uncommitted_changes (env : CheckoutEnv) (s : RepoState) : Bool :=
  if !env.initialized then false
  else s.dirtyTracked || s.untracked

/-- Mirrors `stash_sessions` of git_ops.py: fail when not initialized;
succeed as a no-op when there is nothing to stash; otherwise
`git stash push -u -m message` captures tracked and untracked changes into
a new stash entry, or fails leaving the state alone. -/
def stash_sessions (env : CheckoutEnv) (message : String) (s : RepoState) :
    Bool × RepoState :=
  if !env.initialized then (false, s)
  else if !(has_uncommitted_changes env s) then (true, s)
  else if env.stashOk then
    (true, { s with dirtyTracked := false, untracked := false,
                    stashes := message :: s.stashes })
  else (false, s)

/-- Mirrors `clean_untracked_files` of git_ops.py (`git clean -fd`). -/
def clean_untracked_files (env : CheckoutEnv) (s : RepoState) : Bool × RepoState :=
  if !env.initialized then (false, s)
  else if env.cleanOk then (true, { s with untracked := false })
  else (false, s)

/-- Replaces the binding of a branch name with a new target commit,
keeping all other branches: the effect of `git checkout -B name commit`
on the branch map. -/
def setBranch (name commit : String) (bs : List (String × String)) :
    List (String × String) :=
  (name, commit) :: bs.filter (fun p => !(p.1 = name))

/-- Mirrors `create_or_checkout_branch` of git_ops.py in the form used by
checkout_sync.py (a commit is always supplied): fail when not initialized,
otherwise `git checkout -B branch commit` force-resets the branch to the
commit, or fails leaving the state alone. -/
def create_or_checkout_branch (env : CheckoutEnv) (name commit : String)
    (s : RepoState) : Bool × RepoState :=
  if !env.initialized then (false, s)
  else if env.checkoutOk then
    (true, { s with branches := setBranch name commit s.branches })
  else (false, s)

/-- The stash-list search of checkout_sync.py step 4, specialised to the
modelled state where each listing line is the stash message: the first
entry whose message contains the pattern as a substring. -/
def findStashMsg (stashes : List String) (pat : String) : Option String :=
  stashes.find? (fun m => strContains m pat)

/-- Mirrors `pop_stash` of git_ops.py: `git stash pop ref` applies the
entry to the working tree (making it dirty again, untracked files
included) and drops it from the stash list; on failure the entry and the
tree are left alone. -/
def pop_stash (env : CheckoutEnv) (msg : String) (s : RepoState) :
    Bool × RepoState :=
  if !env.initialized then (false, s)
  else if env.popOk then
    (true, { s with stashes := s.stashes.erase msg,
                    dirtyTracked := true, untracked := true })
  else (false, s)

/-- Step 4 of sync_checkout: look for a stash tagged for the new commit,
pop it if present (warning on failure), report when there is nothing to
restore. -/
def restoreStep (env : CheckoutEnv) (new_sha : String) (s : RepoState) :
    RepoState × List Ev :=
  match findStashMsg s.stashes (stashPattern new_sha) with
  | some msg =>
    let r := pop_stash env msg s
    (r.2, if r.1 then [Ev.stepRestore, Ev.restored]
          else [Ev.stepRestore, Ev.warnRestore])
  | none => (s, [Ev.stepRestore, Ev.noRestore])

/-- Steps 3.5 and 4 of sync_checkout: clean untracked files (failure is a
warning and the synchronizer continues), then restore. -/
def cleanAndRestore (env : CheckoutEnv) (new_sha : String) (s : RepoState) :
    RepoState × List Ev :=
  let c := clean_untracked_files env s
  let r := restoreStep env new_sha c.2
  (r.1, (if c.1 then [Ev.stepClean] else [Ev.stepClean, Ev.warnClean]) ++ r.2)

/-- The switch step followed by clean and restore; a switch failure aborts
the event (steps 3.5 and 4 do not run). -/
def switchCleanRestore (env : CheckoutEnv) (nb new_sha target : String)
    (s : RepoState) : RepoState × List Ev :=
  let sw := create_or_checkout_branch env nb target s
  if sw.1 then
    let r := cleanAndRestore env new_sha sw.2
    (r.1, Ev.stepSwitch :: r.2)
  else (sw.2, [Ev.stepSwitch, Ev.errSwitch])

/-- Step 2 onwards of sync_checkout: resolve the new commit, falling back
to the initial commit when there is no match; abort with an error when the
store has no usable history; otherwise switch, clean, restore. -/
def resolveOnwards (env : CheckoutEnv) (nb new_sha : String) (s : RepoState) :
    RepoState × List Ev :=
  match env.resolve new_sha with
  | some c =>
    let r := switchCleanRestore env nb new_sha c s
    (r.1, Ev.stepResolve :: r.2)
  | none =>
    match env.initialCommit with
    | none => (s, [Ev.stepResolve, Ev.errNoCommits])
    | some ic =>
      let r := switchCleanRestore env nb new_sha ic s
      (r.1, Ev.stepResolve :: r.2)

/-- Mirrors `sync_checkout` of cli/checkout_sync.py. -/
def sync_checkout (env : CheckoutEnv) (old_sha new_sha checkout_type : String)
    (s : RepoState) : RepoState × List Ev :=
  if ¬ (checkout_type = "1") then (s, [])
  else if !env.initialized then (s, [Ev.notInit])
  else
    match env.mainBranch with
    | none => (s, [Ev.noBranch])
    | some nb =>
      if nb = "HEAD" then (s, [Ev.detached])
      else
        let st := stash_sessions env (stashPattern old_sha) s
        let r := resolveOnwards env nb new_sha st.2
        (r.1, (if st.1 then [Ev.stepPreserve]
               else [Ev.stepPreserve, Ev.warnStash]) ++ r.2)

/-- Step markers among the events. -/
def isStep : Ev → Bool
  | .stepPreserve | .stepResolve | .stepSwitch | .stepClean | .stepRestore => true
  | _ => false

/-- The canonical step order of one synchronizer invocation. -/
def canonicalSteps : List Ev :=
  [Ev.stepPreserve, Ev.stepResolve, Ev.stepSwitch, Ev.stepClean, Ev.stepRestore]

/-- The commit the switch step targets: the resolved commit when a direct
match exists, the initial commit otherwise. -/
def branchTarget (env : CheckoutEnv) (new_sha : String) : Option String :=
  match env.resolve new_sha with
  | some c => some c
  | none => env.initialCommit

/-- The effect of one sync_checkout invocation on the branch map alone. -/
def branchesAfterSync (env : CheckoutEnv) (new_sha : String)
    (bs : List (String × String)) : List (String × String) :=
  if !env.initialized then bs
  else
    match env.mainBranch with
    | none => bs
    | some nb =>
      if nb = "HEAD" then bs
      else
        match branchTarget env new_sha with
        | none => bs
        | some c => if env.checkoutOk then setBranch nb c bs else bs

theorem stash_sessions_branches (env : CheckoutEnv) (m : String) (s : RepoState) :
    ((stash_sessions env m s).2).branches = s.branches := by
  unfold stash_sessions
  repeat' split
  all_goals rfl

theorem restoreStep_branches (env : CheckoutEnv) (n : String) (s : RepoState) :
    ((restoreStep env n s).1).branches = s.branches := by
  unfold restoreStep pop_stash
  repeat' split
  all_goals rfl

theorem cleanAndRestore_branches (env : CheckoutEnv) (n : String) (s : RepoState) :
    ((cleanAndRestore env n s).1).branches = s.branches := by
  unfold cleanAndRestore clean_untracked_files
  repeat' split
  all_goals simp [restoreStep_branches]

theorem switchCleanRestore_branches (env : CheckoutEnv) (nb n t : String)
    (s : RepoState) (hini : env.initialized = true) :
    ((switchCleanRestore env nb n t s).1).branches =
      (if env.checkoutOk then setBranch nb t s.branches else s.branches) := by
  unfold switchCleanRestore create_or_checkout_branch
  rw [hini]
  cases hco : env.checkoutOk <;> simp [hco, cleanAndRestore_branches]

theorem resolveOnwards_branches (env : CheckoutEnv) (nb n : String)
    (s : RepoState) (hini : env.initialized = true) :
    ((resolveOnwards env nb n s).1).branches =
      (match branchTarget env n with
       | none => s.branches
       | some c => if env.checkoutOk then setBranch nb c s.branches
                   else s.branches) := by
  unfold resolveOnwards branchTarget
  cases hr : env.resolve n with
  | some c => simp [switchCleanRestore_branches env nb n c s hini]
  | none =>
    cases hic : env.initialCommit with
    | none => rfl
    | some ic => simp [switchCleanRestore_branches env nb n ic s hini]

theorem sync_checkout_branches (env : CheckoutEnv) (o n : String) (s : RepoState) :
    ((sync_checkout env o n "1" s).1).branches = branchesAfterSync env n s.branches := by
  unfold sync_checkout branchesAfterSync
  cases hini : env.initialized with
  | false => simp
  | true =>
    simp only [Bool.not_true, Bool.false_eq_true, if_false, if_neg, not_true,
      Bool.true_eq_false]
    cases hmb : env.mainBranch with
    | none => simp
    | some nb =>
      by_cases hnb : nb = "HEAD"
      · simp [hnb]
      · simp only [hnb, if_false, if_neg, not_false_iff, if_true]
        have h1 := resolveOnwards_branches env nb n
          ((stash_sessions env (stashPattern o) s).2) hini
        have h2 := stash_sessions_branches env (stashPattern o) s
        simp only [h1, h2]

theorem setBranch_idem (n c : String) (bs : List (String × String)) :
    setBranch n c (setBranch n c bs) = setBranch n c bs := by
  simp [setBranch, List.filter_filter]

theorem branchesAfterSync_idem (env : CheckoutEnv) (n : String)
    (bs : List (String × String)) :
    branchesAfterSync env n (branchesAfterSync env n bs) =
      branchesAfterSync env n bs := by
  unfold branchesAfterSync
  cases env.initialized with
  | false => rfl
  | true =>
    cases env.mainBranch with
    | none => rfl
    | some nb =>
      by_cases hnb : nb = "HEAD"
      · simp [hnb]
      · simp only [hnb, Bool.not_true, Bool.false_eq_true, if_false]
        cases branchTarget env n with
        | none => simp
        | some c =>
          cases hco : env.checkoutOk <;> simp [hco, setBranch_idem]

/-- C4: checkout-sync is idempotent on the final branch state: running the
same branch-checkout event twice with no intervening changes leaves the
secondary store's branch map exactly as one run does. -/
theorem checkout_sync_idempotent (env : CheckoutEnv) (X Y : String)
    (s : RepoState) :
    ((sync_checkout env X Y "1" ((sync_checkout env X Y "1" s).1)).1).branches =
      ((sync_checkout env X Y "1" s).1).branches := by
  rw [sync_checkout_branches, sync_checkout_branches]
  exact branchesAfterSync_idem env Y s.branches

theorem restoreStep_steps (env : CheckoutEnv) (n : String) (s : RepoState) :
    (restoreStep env n s).2.filter isStep = [Ev.stepRestore] := by
  unfold restoreStep
  split
  · dsimp only
    split <;> rfl
  · rfl

theorem cleanAndRestore_steps (env : CheckoutEnv) (n : String) (s : RepoState) :
    (cleanAndRestore env n s).2.filter isStep = [Ev.stepClean, Ev.stepRestore] := by
  unfold cleanAndRestore
  simp only [List.filter_append, restoreStep_steps]
  split <;> rfl

theorem switchCleanRestore_steps (env : CheckoutEnv) (nb n t : String)
    (s : RepoState) :
    (switchCleanRestore env nb n t s).2.filter isStep =
        [Ev.stepSwitch, Ev.stepClean, Ev.stepRestore] ∨
    (switchCleanRestore env nb n t s).2.filter isStep = [Ev.stepSwitch] := by
  unfold switchCleanRestore
  cases hsw : (create_or_checkout_branch env nb t s).1 with
  | false =>
    right
    simp [hsw, isStep]
  | true =>
    left
    simp [hsw, List.filter_cons, cleanAndRestore_steps, isStep]

theorem resolveOnwards_steps (env : CheckoutEnv) (nb n : String) (s : RepoState) :
    ∃ k, (resolveOnwards env nb n s).2.filter isStep =
      (canonicalSteps.drop 1).take k := by
  unfold resolveOnwards
  cases hr : env.resolve n with
  | some c =>
    rcases switchCleanRestore_steps env nb n c s with h | h
    · exact ⟨4, by simp [List.filter_cons, h, isStep, canonicalSteps]⟩
    · exact ⟨2, by simp [List.filter_cons, h, isStep, canonicalSteps]⟩
  | none =>
    cases hic : env.initialCommit with
    | none => exact ⟨1, by simp [isStep, canonicalSteps]⟩
    | some ic =>
      rcases switchCleanRestore_steps env nb n ic s with h | h
      · exact ⟨4, by simp [List.filter_cons, h, isStep, canonicalSteps]⟩
      · exact ⟨2, by simp [List.filter_cons, h, isStep, canonicalSteps]⟩

/-- C7: in every invocation the executed step markers form a prefix of the
canonical order Preserve, Resolve, Switch, Clean, Restore: no step ever
runs before an earlier step of the sequence, Clean comes after Switch and
before Restore, and aborted invocations simply stop earlier. -/
theorem checkout_sync_step_order (env : CheckoutEnv) (o n ct : String)
    (s : RepoState) :
    ∃ k, (sync_checkout env o n ct s).2.filter isStep = canonicalSteps.take k := by
  unfold sync_checkout
  by_cases hct : ct = "1"
  · simp only [hct, if_neg, not_true, if_false, if_true, not_false_iff]
    cases hini : env.initialized with
    | false => exact ⟨0, rfl⟩
    | true =>
      simp only [Bool.not_true, Bool.false_eq_true, if_false]
      cases hmb : env.mainBranch with
      | none => exact ⟨0, rfl⟩
      | some nb =>
        by_cases hnb : nb = "HEAD"
        · exact ⟨0, by simp [hnb, isStep]⟩
        · simp only [hnb, if_false, if_neg, not_false_iff]
          obtain ⟨k, hk⟩ := resolveOnwards_steps env nb n
            ((stash_sessions env (stashPattern o) s).2)
          refine ⟨k + 1, ?_⟩
          simp only [List.filter_append, hk]
          split <;> simp [isStep, canonicalSteps]
  · simp only [hct, if_true, if_pos, not_false_iff]
    exact ⟨0, rfl⟩

/-- C3: best-effort failures are soft.  Under an open gate: (i) when the
stash capture fails, the synchronizer emits only a warning and runs the
resolve/switch/clean/restore tail exactly as it would have, on the
unchanged state; (ii) when the untracked cleanup fails, only a warning is
added and the restore step still runs on the uncleaned state; (iii) when
the stash pop fails, the invocation ends with a warning and the state it
had before the pop, aborting nothing. -/
theorem checkout_sync_soft_failures (env : CheckoutEnv)
    (old_sha new_sha nb : String) (s s' : RepoState)
    (hini : env.initialized = true) (hmb : env.mainBranch = some nb)
    (hnb : ¬ nb = "HEAD") :
    (has_uncommitted_changes env s = true → env.stashOk = false →
      sync_checkout env old_sha new_sha "1" s =
        ((resolveOnwards env nb new_sha s).1,
         [Ev.stepPreserve, Ev.warnStash] ++ (resolveOnwards env nb new_sha s).2)) ∧
    (env.cleanOk = false →
      cleanAndRestore env new_sha s' =
        ((restoreStep env new_sha s').1,
         [Ev.stepClean, Ev.warnClean] ++ (restoreStep env new_sha s').2)) ∧
    (env.popOk = false →
      ∀ msg, findStashMsg s'.stashes (stashPattern new_sha) = some msg →
        restoreStep env new_sha s' = (s', [Ev.stepRestore, Ev.warnRestore])) := by
  refine ⟨?_, ?_, ?_⟩
  · intro hch hstash
    unfold sync_checkout
    simp only [hini, hmb, hnb, Bool.not_true, Bool.false_eq_true, if_false,
      if_neg, not_false_iff, not_true]
    have hss : stash_sessions env (stashPattern old_sha) s = (false, s) := by
      unfold stash_sessions
      simp [hini, hch, hstash]
    simp [hss]
  · intro hclean
    unfold cleanAndRestore clean_untracked_files
    simp [hini, hclean]
  · intro hpop msg hmsg
    unfold restoreStep pop_stash
    simp [hini, hmsg, hpop]

/-- Environment for the soft-failure witness: every best-effort git
operation fails while resolution and switching succeed. -/
def failEnv : CheckoutEnv :=
  { initialized := true, mainBranch := some "main",
    resolve := fun _ => some "cc1", initialCommit := some "cc0",
    stashOk := false, checkoutOk := true, cleanOk := false, popOk := false }

/-- A dirty working state holding a stash entry for commit Y. -/
def dirtyState : RepoState :=
  { branches := [], dirtyTracked := true, untracked := true,
    stashes := [stashPattern "Y"] }

/-- Witness for C3: all three soft failures at concrete inputs. -/
theorem checkout_sync_soft_failures_witness :
    (sync_checkout failEnv "X" "Y" "1" dirtyState =
      ((resolveOnwards failEnv "main" "Y" dirtyState).1,
       [Ev.stepPreserve, Ev.warnStash] ++
         (resolveOnwards failEnv "main" "Y" dirtyState).2)) ∧
    (cleanAndRestore failEnv "Y" dirtyState =
      ((restoreStep failEnv "Y" dirtyState).1,
       [Ev.stepClean, Ev.warnClean] ++ (restoreStep failEnv "Y" dirtyState).2)) ∧
    (restoreStep failEnv "Y" dirtyState =
      (dirtyState, [Ev.stepRestore, Ev.warnRestore])) := by
  have h := checkout_sync_soft_failures failEnv "X" "Y" "main" dirtyState
    dirtyState rfl rfl (by decide)
  exact ⟨h.1 rfl rfl, h.2.1 rfl, h.2.2 rfl (stashPattern "Y") (by decide)⟩

/-- C5: gate no-ops.  A file-level checkout (type "0") returns at once
with the secondary store untouched; a branch checkout against an
uninitialized store only prints the note and leaves the state untouched;
a branch checkout while the main repo reports the detached pseudo-branch
HEAD likewise leaves the state untouched — no stash, branch move, clean or
pop happens in any of these cases. -/
theorem checkout_sync_gate_noop (env : CheckoutEnv) (X Y : String)
    (s : RepoState) :
    (sync_checkout env X Y "0" s = (s, [])) ∧
    (env.initialized = false →
      sync_checkout env X Y "1" s = (s, [Ev.notInit])) ∧
    (env.initialized = true → env.mainBranch = some "HEAD" →
      sync_checkout env X Y "1" s = (s, [Ev.detached])) := by
  refine ⟨?_, ?_, ?_⟩
  · unfold sync_checkout
    simp
  · intro hini
    unfold sync_checkout
    simp [hini]
  · intro hini hmb
    unfold sync_checkout
    simp [hini, hmb]

/-- Environment whose main repo reports a detached HEAD. -/
def detachedEnv : CheckoutEnv :=
  { initialized := true, mainBranch := some "HEAD",
    resolve := fun _ => some "cc1", initialCommit := some "cc0",
    stashOk := true, checkoutOk := true, cleanOk := true, popOk := true }

/-- Environment with an uninitialized secondary store. -/
def uninitEnv : CheckoutEnv :=
  { initialized := false, mainBranch := some "main",
    resolve := fun _ => some "cc1", initialCommit := some "cc0",
    stashOk := true, checkoutOk := true, cleanOk := true, popOk := true }

/-- A nontrivial store state for the no-op witnesses. -/
def busyState : RepoState :=
  { branches := [("main", "cc1")], dirtyTracked := true, untracked := true,
    stashes := [stashPattern "Y", "other"] }

/-- Witness for C5 at concrete inputs: file checkout, uninitialized store,
and detached HEAD all leave the state exactly as it was. -/
theorem checkout_sync_gate_noop_witness :
    (sync_checkout detachedEnv "X" "Y" "0" busyState = (busyState, [])) ∧
    (sync_checkout uninitEnv "X" "Y" "1" busyState =
      (busyState, [Ev.notInit])) ∧
    (sync_checkout detachedEnv "X" "Y" "1" busyState =
      (busyState, [Ev.detached])) :=
  ⟨(checkout_sync_gate_noop detachedEnv "X" "Y" busyState).1,
   (checkout_sync_gate_noop uninitEnv "X" "Y" busyState).2.1 rfl,
   (checkout_sync_gate_noop detachedEnv "X" "Y" busyState).2.2 rfl rfl⟩

/-- C6: when the resolver finds no secondary commit for the new primary
commit, the branch named after the primary branch is force-reset at the
store's initial commit; and when not even an initial commit exists, the
event stops after Preserve and Resolve with an error — Switch, Clean and
Restore do not run and the branch map is untouched. -/
theorem checkout_sync_initial_fallback (env : CheckoutEnv)
    (old_sha new_sha nb : String) (s : RepoState)
    (hini : env.initialized = true) (hmb : env.mainBranch = some nb)
    (hnb : ¬ nb = "HEAD") (hres : env.resolve new_sha = none) :
    (∀ ic, env.initialCommit = some ic → env.checkoutOk = true →
      ((sync_checkout env old_sha new_sha "1" s).1).branches =
        setBranch nb ic s.branches ∧
      Ev.stepSwitch ∈ (sync_checkout env old_sha new_sha "1" s).2) ∧
    (env.initialCommit = none →
      Ev.errNoCommits ∈ (sync_checkout env old_sha new_sha "1" s).2 ∧
      (sync_checkout env old_sha new_sha "1" s).2.filter isStep =
        [Ev.stepPreserve, Ev.stepResolve] ∧
      ((sync_checkout env old_sha new_sha "1" s).1).branches = s.branches) := by
  constructor
  · intro ic hic hco
    constructor
    · rw [sync_checkout_branches]
      unfold branchesAfterSync branchTarget
      simp [hini, hmb, hnb, hres, hic, hco]
    · unfold sync_checkout resolveOnwards switchCleanRestore
      simp only [hini, hmb, hnb, hres, hic, Bool.not_true, Bool.false_eq_true,
        if_false, if_neg, not_false_iff, not_true]
      have hsw : (create_or_checkout_branch env nb ic
          ((stash_sessions env (stashPattern old_sha) s).2)).1 = true := by
        unfold create_or_checkout_branch
        simp [hini, hco]
      simp [hsw]
  · intro hic
    have hsync : sync_checkout env old_sha new_sha "1" s =
        ((stash_sessions env (stashPattern old_sha) s).2,
         (if (stash_sessions env (stashPattern old_sha) s).1 then
            [Ev.stepPreserve] else [Ev.stepPreserve, Ev.warnStash]) ++
           [Ev.stepResolve, Ev.errNoCommits]) := by
      unfold sync_checkout resolveOnwards
      simp [hini, hmb, hnb, hres, hic]
    rw [hsync]
    refine ⟨by split <;> simp, ?_, stash_sessions_branches env _ s⟩
    split <;> simp [isStep]

/-- Environment where nothing resolves, but an initial commit exists. -/
def fallbackEnv : CheckoutEnv :=
  { initialized := true, mainBranch := some "main",
    resolve := fun _ => none, initialCommit := some "cc0",
    stashOk := true, checkoutOk := true, cleanOk := true, popOk := true }

/-- Environment where nothing resolves and the store has no commits. -/
def noHistoryEnv : CheckoutEnv :=
  { initialized := true, mainBranch := some "main",
    resolve := fun _ => none, initialCommit := none,
    stashOk := true, checkoutOk := true, cleanOk := true, popOk := true }

/-- Witness for C6 at concrete inputs. -/
theorem checkout_sync_initial_fallback_witness :
    (((sync_checkout fallbackEnv "X" "Y" "1" busyState).1).branches =
        setBranch "main" "cc0" busyState.branches ∧
      Ev.stepSwitch ∈ (sync_checkout fallbackEnv "X" "Y" "1" busyState).2) ∧
    (Ev.errNoCommits ∈ (sync_checkout noHistoryEnv "X" "Y" "1" busyState).2 ∧
      (sync_checkout noHistoryEnv "X" "Y" "1" busyState).2.filter isStep =
        [Ev.stepPreserve, Ev.stepResolve] ∧
      ((sync_checkout noHistoryEnv "X" "Y" "1" busyState).1).branches =
        busyState.branches) :=
  ⟨(checkout_sync_initial_fallback fallbackEnv "X" "Y" "main" busyState
      rfl rfl (by decide) rfl).1 "cc0" rfl rfl,
   (checkout_sync_initial_fallback noHistoryEnv "X" "Y" "main" busyState
      rfl rfl (by decide) rfl).2 rfl⟩

end CCSync
